import Mathlib

/-!
Shallow embedding of the Expense-Tracker application (Python/MySQL) for
verification.  The database is modelled as an explicit in-memory state and
each Python method that issues SQL is translated to a Lean function over
that state.  Numeric `DECIMAL` amounts are modelled exactly as rationals;
dates as year/month/day triples ordered lexicographically (MySQL `DATE`
comparison).  `DatabaseConnection.execute_query(query, params, fetch=False)`
commits and returns `cursor.lastrowid` (an `INSERT` returns the fresh
AUTO_INCREMENT id; any other statement returns 0) and returns `None` only
when the driver raises an error; the embedding models the error-free
executions, so a non-fetch query yields `some id` with `id = 0` for
`UPDATE`/`DELETE`.  Python truthiness tests (`if user_id:`, `if full_name:`)
are modelled exactly: `None`, `0` and `""` are falsy.
-/

namespace ExpenseApp

/-- Calendar date as stored in the `expense_date` column. -/
structure Date where
  year : Nat
  month : Nat
  day : Nat
deriving DecidableEq, Repr

/-- MySQL `DATE` comparison: lexicographic on (year, month, day). -/
def dateLe (a b : Date) : Bool :=
  a.year < b.year ||
    (a.year == b.year && (a.month < b.month ||
      (a.month == b.month && a.day ≤ b.day)))

/-- A row of the `expenses` table. -/
structure ExpenseRow where
  expense_id : Nat
  user_id : Nat
  category_id : Nat
  amount : ℚ
  description : String
  expense_date : Date
  payment_method : String
  notes : Option String
deriving DecidableEq, Repr

/-- A row of the `categories` table. -/
structure CategoryRow where
  category_id : Nat
  category_name : String
  icon : String
  color : String
deriving DecidableEq, Repr

/-- A row of the `users` table (`password` holds the stored hash). -/
structure UserRow where
  user_id : Nat
  username : String
  email : String
  password : String
  full_name : String
  is_active : Bool
deriving DecidableEq, Repr

/-- The database state. -/
structure Db where
  expenses : List ExpenseRow
  categories : List CategoryRow
  users : List UserRow
deriving DecidableEq, Repr

/-- Python truthiness of an optional integer argument: `None` and `0` are
falsy (`if user_id:` / `if category_id:` in the model layer). -/
def optTruthy (o : Option Nat) : Bool :=
  o.getD 0 != 0

/-- The optional `AND expense_date >= %s` clause. -/
def afterStart (s : Option Date) (x : ExpenseRow) : Bool :=
  match s with
  | none => true
  | some sd => dateLe sd x.expense_date

/-- The optional `AND expense_date <= %s` clause. -/
def beforeEnd (e : Option Date) (x : ExpenseRow) : Bool :=
  match e with
  | none => true
  | some ed => dateLe x.expense_date ed

/-- `WHERE user_id = %s` plus the optional date-range clauses. -/
def matchesFilters (u : Nat) (s e : Option Date) (x : ExpenseRow) : Bool :=
  x.user_id == u && afterStart s x && beforeEnd e x

/-- The optional `AND category_id = %s` clause (added only when the Python
`category_id` argument is truthy). -/
def catFilter (cid : Option Nat) (x : ExpenseRow) : Bool :=
  if optTruthy cid then x.category_id == cid.getD 0 else true

/-- `Expense.get_total_expenses`: `SELECT COALESCE(SUM(amount), 0) ... WHERE
user_id = %s [AND expense_date >= s] [AND expense_date <= e]
[AND category_id = c]`. -/
def get_total_expenses (db : Db) (u : Nat) (s e : Option Date)
    (cid : Option Nat) : ℚ :=
  ((db.expenses.filter fun x => matchesFilters u s e x && catFilter cid x).map
    (·.amount)).sum

/-- One output row of `Expense.get_category_totals`. -/
structure CatTotal where
  category_id : Nat
  category_name : String
  icon : String
  color : String
  total : ℚ
  count : Nat
deriving DecidableEq, Repr

/-- `ORDER BY total DESC` as a relation on result rows. -/
def catRel (a b : CatTotal) : Prop :=
  b.total ≤ a.total

instance : DecidableRel catRel := fun a b =>
  inferInstanceAs (Decidable (b.total ≤ a.total))

instance : IsTotal CatTotal catRel :=
  ⟨fun a b => le_total b.total a.total⟩

instance : IsTrans CatTotal catRel :=
  ⟨fun _ _ _ h1 h2 => le_trans h2 h1⟩

/-- `GROUP BY c.category_id` collapses duplicate category ids, keeping the
first row's non-aggregated columns. -/
def dedupCats : List CategoryRow → List CategoryRow
  | [] => []
  | c :: rest =>
      c :: dedupCats (rest.filter fun d => d.category_id != c.category_id)
termination_by l => l.length
decreasing_by
  simp only [List.length_cons]
  exact Nat.lt_succ_of_le (List.length_filter_le _ _)

/-- The expenses joined to category `c` by `LEFT JOIN expenses e ON
c.category_id = e.category_id AND e.user_id = %s [AND e.expense_date >= s]
[AND e.expense_date <= e]` (the optional clauses extend the `ON`
condition). -/
def joinedExpenses (db : Db) (u : Nat) (s e : Option Date)
    (c : CategoryRow) : List ExpenseRow :=
  db.expenses.filter fun x =>
    x.category_id == c.category_id && x.user_id == u &&
      afterStart s x && beforeEnd e x

/-- The aggregated row `SELECT c.category_id, c.category_name, c.icon,
c.color, COALESCE(SUM(e.amount), 0) as total, COUNT(e.expense_id) as count`
for one category (`COUNT(e.expense_id)` ignores the NULL rows a `LEFT JOIN`
produces for categories without matches). -/
def catEntry (db : Db) (u : Nat) (s e : Option Date)
    (c : CategoryRow) : CatTotal :=
  let es := joinedExpenses db u s e c
  ⟨c.category_id, c.category_name, c.icon, c.color,
    (es.map (·.amount)).sum, es.length⟩

/-- `Expense.get_category_totals`: one aggregated row per category
(`LEFT JOIN`, so categories without expenses appear with total 0, count 0),
sorted by `ORDER BY total DESC`. -/
def get_category_totals (db : Db) (u : Nat) (s e : Option Date) :
    List CatTotal :=
  List.insertionSort catRel ((dedupCats db.categories).map (catEntry db u s e))

/-- One output row of `Expense.get_monthly_totals`. -/
structure MonthTotal where
  month : Nat
  total : ℚ
  count : Nat
deriving DecidableEq, Repr

/-- `WHERE user_id = %s AND YEAR(expense_date) = %s`. -/
def inYear (u y : Nat) (x : ExpenseRow) : Bool :=
  x.user_id == u && x.expense_date.year == y

/-- The grouped query of `get_monthly_totals`: `SELECT MONTH(expense_date)
as month, COALESCE(SUM(amount), 0) as total, COUNT(*) as count ... GROUP BY
MONTH(expense_date) ORDER BY month` — the distinct month values that
actually occur, in ascending order. -/
def monthsIn (db : Db) (u y : Nat) : List Nat :=
  List.insertionSort (· ≤ ·)
    (((db.expenses.filter (inYear u y)).map fun x => x.expense_date.month).dedup)

/-- The aggregated row of one month: `COALESCE(SUM(amount), 0)` and
`COUNT(*)` over that month's rows of the filtered selection. -/
def monthRow (es : List ExpenseRow) (m : Nat) : MonthTotal :=
  let ms := es.filter fun x => x.expense_date.month == m
  ⟨m, (ms.map (·.amount)).sum, ms.length⟩

/-- One aggregated row per occurring month. -/
def monthlyRows (db : Db) (u y : Nat) : List MonthTotal :=
  (monthsIn db u y).map (monthRow (db.expenses.filter (inYear u y)))

/-- `monthly_data[row['month']] = row` on the insertion-ordered Python dict:
replace in place when the key exists, append otherwise. -/
def fillMonth : List (Nat × MonthTotal) → MonthTotal → List (Nat × MonthTotal)
  | [], r => [(r.month, r)]
  | (k, v) :: rest, r =>
      if k == r.month then (k, r) :: rest else (k, v) :: fillMonth rest r

/-- The dict `{i: {'month': i, 'total': 0, 'count': 0} for i in
range(1, 13)}` as an insertion-ordered association list. -/
def monthSeed : List (Nat × MonthTotal) :=
  (List.range 12).map fun i => (i + 1, (⟨i + 1, 0, 0⟩ : MonthTotal))

/-- `Expense.get_monthly_totals`: run the grouped query, then fill the
pre-seeded dict and return its values in insertion order. -/
def get_monthly_totals (db : Db) (u y : Nat) : List MonthTotal :=
  (((monthlyRows db u y).foldl fillMonth monthSeed).map Prod.snd)

/-- The row returned by `Expense.get_expense_stats`. -/
structure Stats where
  total : ℚ
  average : ℚ
  max_expense : ℚ
  min_expense : ℚ
  count : Nat
deriving DecidableEq, Repr

/-- `Expense.get_expense_stats`: `SELECT COALESCE(SUM(amount), 0),
COALESCE(AVG(amount), 0), COALESCE(MAX(amount), 0), COALESCE(MIN(amount), 0),
COUNT(*) ... WHERE user_id = %s` plus the optional date clauses.  On an
empty selection every aggregate is coalesced to 0. -/
def get_expense_stats (db : Db) (u : Nat) (s e : Option Date) : Stats :=
  let amounts := (db.expenses.filter (matchesFilters u s e)).map (·.amount)
  match amounts with
  | [] => ⟨0, 0, 0, 0, 0⟩
  | a :: rest =>
      ⟨(a :: rest).sum, (a :: rest).sum / (a :: rest).length,
        rest.foldl max a, rest.foldl min a, (a :: rest).length⟩

/-- Rounding to 2 decimal places (used by the spec's wording, not by the
code, which returns the exact SQL aggregate). -/
def round2 (q : ℚ) : ℚ :=
  (round (q * 100) : ℤ) / 100

/-- The keyword arguments of `Expense.update` (`None` marks an argument the
caller did not supply). -/
structure UpdateFields where
  category_id : Option Nat
  amount : Option ℚ
  description : Option String
  expense_date : Option Date
  payment_method : Option String
  notes : Option String
deriving DecidableEq, Repr

/-- No argument supplied: the `updates` list built by `Expense.update` is
empty. -/
def noUpdates (f : UpdateFields) : Bool :=
  f.category_id.isNone && f.amount.isNone && f.description.isNone &&
    f.expense_date.isNone && f.payment_method.isNone && f.notes.isNone

/-- Apply the `SET` clauses of `Expense.update` to one row: exactly the
arguments that are not `None` are assigned, the rest keep their value. -/
def applyUpdate (f : UpdateFields) (x : ExpenseRow) : ExpenseRow :=
  { x with
    category_id := f.category_id.getD x.category_id
    amount := f.amount.getD x.amount
    description := f.description.getD x.description
    expense_date := f.expense_date.getD x.expense_date
    payment_method := f.payment_method.getD x.payment_method
    notes := match f.notes with
      | some n => some n
      | none => x.notes }

/-- `Expense.update` (instance method): returns `False` before touching the
database when no argument was supplied, otherwise runs `UPDATE expenses SET
... WHERE expense_id = %s` — there is no `user_id` clause — and returns
`result is not None`, which is `True` for every error-free execution
(`lastrowid` is 0, not `None`, for an `UPDATE`). -/
def expense_update (db : Db) (expense_id : Nat) (f : UpdateFields) :
    Bool × Db :=
  if noUpdates f then (false, db)
  else
    (true, { db with expenses := db.expenses.map fun x =>
      if x.expense_id == expense_id then applyUpdate f x else x })

/-- `Expense.delete` (instance method): `DELETE FROM expenses WHERE
expense_id = %s` — no `user_id` clause; reports `result is not None`. -/
def expense_delete (db : Db) (expense_id : Nat) : Bool × Db :=
  (true, { db with expenses :=
    db.expenses.filter fun x => x.expense_id != expense_id })

/-- `Expense.delete_by_id`: `DELETE FROM expenses WHERE expense_id = %s AND
user_id = %s`; reports `result is not None`, which is `True` for every
error-free execution even when zero rows matched. -/
def delete_by_id (db : Db) (expense_id user_id : Nat) : Bool × Db :=
  (true, { db with expenses := db.expenses.filter fun x =>
    !(x.expense_id == expense_id && x.user_id == user_id) })

/-- `Expense.get_by_id`: `SELECT e.*, ... FROM expenses e JOIN categories c
ON e.category_id = c.category_id WHERE e.expense_id = %s` plus
`AND e.user_id = %s` only when the `user_id` argument is truthy; the first
returned row, if any. -/
def get_by_id (db : Db) (expense_id : Nat) (user_id : Option Nat) :
    Option ExpenseRow :=
  (db.expenses.filter fun x =>
    (db.categories.any fun c => c.category_id == x.category_id) &&
      x.expense_id == expense_id &&
      (if optTruthy user_id then x.user_id == user_id.getD 0 else true)).head?

/-- `ExpenseController.delete_expense`: run `Expense.delete_by_id` and map
its boolean to a message. -/
def delete_expense (db : Db) (expense_id user_id : Nat) :
    Bool × String × Db :=
  let r := delete_by_id db expense_id user_id
  if r.1 then (true, "Expense deleted successfully!", r.2)
  else (false, "Failed to delete expense", r.2)

/-- The tail of `ExpenseController.update_expense`: call
`expense.update(**kwargs)` on the fetched object and map its boolean to a
message. -/
def updateOutcome (db : Db) (expense_id : Nat) (f : UpdateFields) :
    Bool × String × Db :=
  let r := expense_update db expense_id f
  if r.1 then (true, "Expense updated successfully!", r.2)
  else (false, "Failed to update expense", r.2)

/-- `ExpenseController.update_expense`: fetch the expense via
`Expense.get_by_id(expense_id, user_id)`; "Expense not found" when that
returns `None`; validate a supplied amount (`float(...) <= 0` rejected);
then run `updateOutcome` on the fetched object's id. -/
def update_expense (db : Db) (expense_id user_id : Nat) (f : UpdateFields) :
    Bool × String × Db :=
  match get_by_id db expense_id (some user_id) with
  | none => (false, "Expense not found", db)
  | some ex =>
      match f.amount with
      | some a => if a ≤ 0 then (false, "Amount must be greater than 0", db)
                  else updateOutcome db ex.expense_id f
      | none => updateOutcome db ex.expense_id f

/-- Python `re.match(p, s)` with a pattern ending in `$` also accepts one
trailing newline; strip it before the full match. -/
def stripNLChars (cs : List Char) : List Char :=
  match cs.reverse with
  | '\n' :: rest => rest.reverse
  | _ => cs

/-- The character class `[a-zA-Z0-9_]`. -/
def usernameChar (c : Char) : Bool :=
  c.isAlphanum || c == '_'

/-- `validate_username`: full match of `^[a-zA-Z0-9_]{3,20}$`. -/
def validate_username (s : String) : Bool :=
  let t := stripNLChars s.toList
  3 ≤ t.length && t.length ≤ 20 && t.all usernameChar

/-- The character class `[a-zA-Z0-9._%+-]` of the email local part. -/
def emailLocalChar (c : Char) : Bool :=
  c.isAlphanum || c == '.' || c == '_' || c == '%' || c == '+' || c == '-'

/-- The character class `[a-zA-Z0-9.-]` of the email domain part. -/
def emailDomainChar (c : Char) : Bool :=
  c.isAlphanum || c == '.' || c == '-'

/-- Split a character list at the first occurrence of `c`. -/
def splitFirst (c : Char) : List Char → Option (List Char × List Char)
  | [] => none
  | x :: xs =>
      if x == c then some ([], xs)
      else (splitFirst c xs).map fun p => (x :: p.1, p.2)

/-- `validate_email`: full match of
`^[a-zA-Z0-9._%+-]+@[a-zA-Z0-9.-]+\.[a-zA-Z]{2,}$`.  Neither character
class contains `@`, so the split is at the unique `@`; the dot introduced
by `\.` must be followed by letters only, hence it is the last dot of the
domain. -/
def validate_email (s : String) : Bool :=
  let t := stripNLChars s.toList
  match splitFirst '@' t with
  | none => false
  | some (lo, rest) =>
      !lo.isEmpty && lo.all emailLocalChar &&
        (match splitFirst '.' rest.reverse with
         | none => false
         | some (tldRev, domRev) =>
             let tld := tldRev.reverse
             let dom := domRev.reverse
             !dom.isEmpty && dom.all emailDomainChar &&
               2 ≤ tld.length && tld.all (·.isAlpha))

/-- `validate_password`: at least 6 characters, at least one letter
(`re.search('[A-Za-z]')`), at least one digit (`re.search('\d')`); returns
the (valid, message) pair of `helpers.validate_password`. -/
def validate_password (p : String) : Bool × String :=
  if p.length < 6 then (false, "Password must be at least 6 characters")
  else if !p.toList.any (·.isAlpha) then
    (false, "Password must contain at least one letter")
  else if !p.toList.any (·.isDigit) then
    (false, "Password must contain at least one number")
  else (true, "Password is valid")

/-- `WHERE (username = %s OR email = %s) AND is_active = TRUE` with the one
login identifier bound to both placeholders. -/
def userMatchesLogin (name : String) (u : UserRow) : Bool :=
  (u.username == name || u.email == name) && u.is_active

/-- `User.authenticate`: take the first matching active user (`result[0]`)
and compare the stored hash with `hash_password(password)`.  The hash
function is a parameter of the embedding (SHA-256 in the code). -/
def authenticate (db : Db) (hash : String → String)
    (username password : String) : Option UserRow :=
  match db.users.filter (userMatchesLogin username) with
  | [] => none
  | u :: _ => if hash password == u.password then some u else none

/-- `AuthController.login`: empty-field guard, then `User.authenticate`;
invalid credentials of either kind yield the same generic message. -/
def login (db : Db) (hash : String → String) (username password : String) :
    Bool × String × Option UserRow :=
  if username == "" || password == "" then
    (false, "Please enter username and password", none)
  else
    match authenticate db hash username password with
    | some u => (true, "Welcome back, " ++ u.full_name ++ "!", some u)
    | none => (false, "Invalid username or password", none)

/-- `User.exists`: count rows with the given username (when truthy), then
with the given email (when truthy); report which field collided first. -/
def user_exists (db : Db) (username email : Option String) :
    Bool × Option String :=
  if (match username with
      | some un => un != "" && db.users.any fun u => u.username == un
      | none => false) then
    (true, some "username")
  else if (match email with
      | some em => em != "" && db.users.any fun u => u.email == em
      | none => false) then
    (true, some "email")
  else
    (false, none)

/-- AUTO_INCREMENT: the fresh id handed out by `INSERT INTO users`. -/
def nextUserId (db : Db) : Nat :=
  db.users.foldl (fun a u => max a u.user_id) 0 + 1

/-- `User.create`: insert the row with the hashed password; `lastrowid` is
the fresh positive id, so the truthiness check succeeds and the new user is
returned. -/
def user_create (db : Db) (hash : String → String)
    (username email password full_name : String) : Option UserRow × Db :=
  let u : UserRow :=
    ⟨nextUserId db, username, email, hash password, full_name, true⟩
  (some u, { db with users := db.users ++ [u] })

/-- `AuthController.register`: the required-fields guard
(`all([...])` — empty strings are falsy), then username pattern, email
pattern, password policy, password/confirm equality, uniqueness via
`User.exists`, and finally `User.create`. -/
def register (db : Db) (hash : String → String)
    (username email password confirm full_name : String) :
    Bool × String × Db :=
  if username == "" || email == "" || password == "" || confirm == "" ||
      full_name == "" then
    (false, "All fields are required", db)
  else if !(validate_username username) then
    (false, "Username must be 3-20 characters (letters, numbers, underscore)",
      db)
  else if !(validate_email email) then
    (false, "Please enter a valid email address", db)
  else if !(validate_password password).1 then
    (false, (validate_password password).2, db)
  else if password != confirm then
    (false, "Passwords do not match", db)
  else
    match user_exists db (some username) (some email) with
    | (true, f) =>
        if f == some "username" then (false, "Username already taken", db)
        else (false, "Email already registered", db)
    | (false, _) =>
        match user_create db hash username email password full_name with
        | (some _, db2) => (true, "Registration successful! Welcome!", db2)
        | (none, db2) => (false, "Registration failed. Please try again.", db2)

/-- `User.update`: build `SET` clauses for the truthy arguments
(`if full_name:` — `None` and `""` both skip), return `False` without a
query when none, else `UPDATE users ... WHERE user_id = %s` and report
`result is not None`. -/
def user_update (db : Db) (user_id : Nat) (full_name email : Option String) :
    Bool × Db :=
  let updFn := match full_name with
    | some s => s != ""
    | none => false
  let updEm := match email with
    | some s => s != ""
    | none => false
  if !updFn && !updEm then (false, db)
  else
    (true, { db with users := db.users.map fun u =>
      if u.user_id == user_id then
        { u with
          full_name := if updFn then full_name.getD u.full_name
                       else u.full_name
          email := if updEm then email.getD u.email else u.email }
      else u })

/-! ### Concrete sample data used by witnesses and counterexamples -/

/-- Sample category 1. -/
def foodCat : CategoryRow := ⟨1, "Food", "F", "#FF0000"⟩

/-- Sample category 2. -/
def travelCat : CategoryRow := ⟨2, "Travel", "T", "#00FF00"⟩

/-- Expense of 100.00 for user 1 in March. -/
def marchExp1 : ExpenseRow := ⟨1, 1, 1, 100, "groceries", ⟨2024, 3, 5⟩, "Cash", none⟩

/-- Expense of 250.50 for user 1 in March. -/
def marchExp2 : ExpenseRow := ⟨2, 1, 1, 501/2, "party", ⟨2024, 3, 10⟩, "Cash", none⟩

/-- Expense of 49.50 for user 1 in March. -/
def marchExp3 : ExpenseRow := ⟨3, 1, 1, 99/2, "snacks", ⟨2024, 3, 20⟩, "Cash", none⟩

/-- Database of the three-expense scenario. -/
def marchDb : Db := ⟨[marchExp1, marchExp2, marchExp3], [foodCat, travelCat], []⟩

/-- An expense row owned by user 2. -/
def otherUserExp : ExpenseRow := ⟨1, 2, 1, 50, "lunch", ⟨2024, 3, 10⟩, "Cash", none⟩

/-- Database holding only user 2's expense. -/
def otherUserDb : Db := ⟨[otherUserExp], [foodCat], []⟩

/-- Update arguments supplying only a new amount. -/
def amountOnly : UpdateFields := ⟨none, some 99, none, none, none, none⟩

/-- Update arguments supplying nothing. -/
def noFields : UpdateFields := ⟨none, none, none, none, none, none⟩

/-- A concrete injective hash standing in for SHA-256. -/
def tagHash (s : String) : String := "H" ++ s

/-- A stored user for the authentication scenarios. -/
def storedUser : UserRow := ⟨1, "honey", "honey@mail.cc", tagHash "pass1", "Honey", true⟩

/-- Database holding only `storedUser`. -/
def authDb : Db := ⟨[], [], [storedUser]⟩

/-- The empty database. -/
def emptyDb : Db := ⟨[], [], []⟩

/-! ### Theorems -/

theorem mem_of_head?_eq_some {α : Type} {l : List α} {x : α}
    (h : l.head? = some x) : x ∈ l := by
  cases l with
  | nil => simp at h
  | cons a t =>
      simp only [List.head?_cons, Option.some.injEq] at h
      exact h ▸ List.mem_cons_self a t

/-- Whatever `get_by_id` returns when called with a truthy `user_id` is a
stored row owned by that user and carrying the requested id. -/
theorem get_by_id_scoped {db : Db} {eid uid : Nat} {x : ExpenseRow}
    (huid : uid ≠ 0) (h : get_by_id db eid (some uid) = some x) :
    x ∈ db.expenses ∧ x.expense_id = eid ∧ x.user_id = uid := by
  have hx := mem_of_head?_eq_some h
  rw [List.mem_filter] at hx
  obtain ⟨hmem, hpred⟩ := hx
  have htruthy : optTruthy (some uid) = true := by
    simp [optTruthy, huid]
  rw [htruthy] at hpred
  simp only [if_true, Bool.and_eq_true, beq_iff_eq] at hpred
  exact ⟨hmem, hpred.1.2, by simpa using hpred.2⟩

/-- A row whose id differs from the targeted one survives `Expense.update`
unchanged. -/
theorem expense_update_keeps_other_rows (db : Db) (eid : Nat)
    (f : UpdateFields) {x : ExpenseRow} (hx : x ∈ db.expenses)
    (hne : x.expense_id ≠ eid) :
    x ∈ (expense_update db eid f).2.expenses := by
  by_cases hnu : noUpdates f = true
  · simp only [expense_update, hnu, if_true]
    exact hx
  · simp [expense_update, hnu]
    exact ⟨x, hx, by simp [hne]⟩

/-- **C3** (counterexample).  The model layer does not scope writes or the
plain read to the requesting user: with user 1 requesting expense 1 — a row
owned by user 2 — `Expense.update` rewrites the row, `Expense.delete`
removes it, and `Expense.get_by_id` called without a user id returns it,
because those queries filter on `expense_id` alone. -/
theorem model_ops_ignore_user :
    otherUserExp.user_id = 2 ∧
    get_by_id otherUserDb 1 none = some otherUserExp ∧
    expense_update otherUserDb 1 amountOnly =
      (true, ⟨[⟨1, 2, 1, 99, "lunch", ⟨2024, 3, 10⟩, "Cash", none⟩],
        [foodCat], []⟩) ∧
    expense_delete otherUserDb 1 = (true, ⟨[], [foodCat], []⟩) := by
  decide

/-- **C3** (amended).  The controller paths are user-scoped: a `get_by_id`
with a truthy user id only returns a row of that user, and under unique
expense ids `ExpenseController.update_expense` and
`ExpenseController.delete_expense` leave every row of any other user in
place — but the model-layer `Expense.update` and `Expense.delete` filter by
`expense_id` only, and `Expense.get_by_id` filters by user only when a
truthy `user_id` argument is supplied. -/
theorem controller_ops_user_scoped (db : Db) (eid uid : Nat)
    (f : UpdateFields) (huid : uid ≠ 0)
    (hids : (db.expenses.map (·.expense_id)).Nodup) :
    (∀ x, get_by_id db eid (some uid) = some x → x.user_id = uid) ∧
    (∀ x ∈ db.expenses, x.user_id ≠ uid →
      x ∈ (update_expense db eid uid f).2.2.expenses) ∧
    (∀ x ∈ db.expenses, x.user_id ≠ uid →
      x ∈ (delete_expense db eid uid).2.2.expenses) := by
  refine ⟨fun x hx => (get_by_id_scoped huid hx).2.2, ?_, ?_⟩
  · intro x hx hxu
    rcases hfound : get_by_id db eid (some uid) with _ | ex
    · simp only [update_expense, hfound]
      exact hx
    · obtain ⟨hexmem, hexid, hexu⟩ := get_by_id_scoped huid hfound
      have hne : x.expense_id ≠ ex.expense_id := by
        intro hsame
        exact hxu (hexu ▸ congrArg ExpenseRow.user_id
          (List.inj_on_of_nodup_map hids hx hexmem hsame))
      have hkeep := expense_update_keeps_other_rows db ex.expense_id f hx hne
      have hout : (updateOutcome db ex.expense_id f).2.2 =
          (expense_update db ex.expense_id f).2 := by
        rcases hr : (expense_update db ex.expense_id f).1 <;>
          simp [updateOutcome, hr]
      simp only [update_expense, hfound]
      rcases hfa : f.amount with _ | a
      · simp only [hfa, hout]
        exact hkeep
      · simp only [hfa]
        by_cases ha : a ≤ 0
        · simp only [if_pos ha]
          exact hx
        · rw [if_neg ha, hout]
          exact hkeep
  · intro x hx hxu
    have hres : (delete_expense db eid uid).2.2.expenses =
        db.expenses.filter (fun y => !(y.expense_id == eid && y.user_id == uid)) := rfl
    rw [hres, List.mem_filter]
    exact ⟨hx, by simp [hxu]⟩

/-- **C3** (witness for the amended theorem). -/
theorem controller_ops_user_scoped_witness :
    (1 : Nat) ≠ 0 ∧ (marchDb.expenses.map (·.expense_id)).Nodup ∧
    (∀ x, get_by_id marchDb 1 (some 1) = some x → x.user_id = 1) ∧
    (∀ x ∈ marchDb.expenses, x.user_id ≠ 1 →
      x ∈ (update_expense marchDb 1 1 amountOnly).2.2.expenses) ∧
    (∀ x ∈ marchDb.expenses, x.user_id ≠ 1 →
      x ∈ (delete_expense marchDb 1 1).2.2.expenses) := by
  refine ⟨by decide, by decide, ?_⟩
  have h := controller_ops_user_scoped marchDb 1 1 amountOnly (by decide) (by decide)
  exact ⟨h.1, h.2.1, h.2.2⟩

/-- **C9** (counterexample).  For the user whose only expenses in the queried
range are 100.00, 250.50 and 49.50, `get_expense_stats` returns the exact
mean 400/3, whose 2-decimal rounding is 133.33, not the 133.50 the claim
states; the other four figures agree with the claim. -/
theorem stats_average_not_133_50 :
    (get_expense_stats marchDb 1 (some ⟨2024, 3, 1⟩) (some ⟨2024, 3, 31⟩)).count = 3 ∧
    (get_expense_stats marchDb 1 (some ⟨2024, 3, 1⟩) (some ⟨2024, 3, 31⟩)).total = 400 ∧
    round2 (get_expense_stats marchDb 1 (some ⟨2024, 3, 1⟩) (some ⟨2024, 3, 31⟩)).average ≠
      267/2 := by
  refine ⟨?_, ?_, ?_⟩ <;>
    simp [get_expense_stats, marchDb, marchExp1, marchExp2, marchExp3, matchesFilters,
      afterStart, beforeEnd, dateLe, List.filter, round2, round_eq] <;> norm_num

/-- **C9** (amended).  For the three-expense scenario the statistics row is
total 400.00, average 400/3 (which rounds to 133.33), max 250.50, min 49.50
and count 3. -/
theorem stats_values_exact :
    get_expense_stats marchDb 1 (some ⟨2024, 3, 1⟩) (some ⟨2024, 3, 31⟩) =
      ⟨400, 400/3, 501/2, 99/2, 3⟩ ∧
    round2 ((400 : ℚ)/3) = 13333/100 := by
  constructor
  · simp [get_expense_stats, marchDb, marchExp1, marchExp2, marchExp3, matchesFilters,
      afterStart, beforeEnd, dateLe, List.filter, List.foldl]
    norm_num [max_def, min_def, Stats.mk.injEq]
  · simp [round2, round_eq]
    norm_num

/-- **C10**.  `Expense.update` with every optional argument absent and
`User.update` with both optional arguments absent return `False` before any
statement is built, leaving the database untouched. -/
theorem no_field_update_fails (db : Db) (eid uid : Nat) :
    expense_update db eid noFields = (false, db) ∧
    user_update db uid none none = (false, db) := by
  exact ⟨rfl, rfl⟩

/-- **C4** (counterexample).  Deleting expense 1 — owned by user 2 — on
behalf of user 1 removes no row, yet `ExpenseController.delete_expense`
reports success: `delete_by_id` returns `result is not None`, and an
error-free `DELETE` yields `lastrowid = 0`, not `None`, no matter how many
rows matched. -/
theorem delete_wrong_user_reports_success :
    delete_expense otherUserDb 1 1 =
      (true, "Expense deleted successfully!", otherUserDb) := by
  decide

/-- **C4** (amended).  `delete_by_id` removes exactly the rows matching both
the expense id and the user id — so a wrong-user call removes nothing — but
`delete_expense` reports success whenever the statement executes without a
database error, even when no row was removed. -/
theorem delete_ownership_scoped (db : Db) (eid uid : Nat) :
    (delete_expense db eid uid).1 = true ∧
    (delete_expense db eid uid).2.1 = "Expense deleted successfully!" ∧
    (delete_expense db eid uid).2.2.expenses =
      db.expenses.filter (fun x => !(x.expense_id == eid && x.user_id == uid)) ∧
    (∀ x ∈ db.expenses, x ∉ (delete_expense db eid uid).2.2.expenses →
      x.expense_id = eid ∧ x.user_id = uid) := by
  refine ⟨rfl, rfl, rfl, ?_⟩
  intro x hx hnot
  by_contra hne
  apply hnot
  have hres : (delete_expense db eid uid).2.2.expenses =
      db.expenses.filter (fun y => !(y.expense_id == eid && y.user_id == uid)) := rfl
  rw [hres, List.mem_filter]
  refine ⟨hx, ?_⟩
  rw [not_and_or] at hne
  rcases hne with h | h <;> simp [h]

/-- **C4** (witness for the amended theorem). -/
theorem delete_ownership_scoped_witness :
    otherUserExp ∈ otherUserDb.expenses ∧
    otherUserExp ∉ (delete_expense otherUserDb 1 2).2.2.expenses ∧
    otherUserExp.expense_id = 1 ∧ otherUserExp.user_id = 2 := by
  refine ⟨by decide, by decide, ?_⟩
  exact (delete_ownership_scoped otherUserDb 1 2).2.2.2 otherUserExp (by decide) (by decide)

theorem fillMonth_keys (r : MonthTotal) :
    ∀ l : List (Nat × MonthTotal), r.month ∈ l.map Prod.fst →
      (fillMonth l r).map Prod.fst = l.map Prod.fst := by
  intro l
  induction l with
  | nil => intro h; cases h
  | cons p rest ih =>
      obtain ⟨k, v⟩ := p
      intro h
      by_cases hk : (k == r.month) = true
      · simp [fillMonth, hk]
      · simp only [fillMonth, hk, if_false, Bool.false_eq_true, List.map_cons]
        have : r.month ∈ rest.map Prod.fst := by
          rcases List.mem_cons.mp h with h1 | h1
          · exact absurd (beq_iff_eq.mpr h1.symm) hk
          · exact h1
        rw [ih this]

theorem fillMonth_lookup_other (r : MonthTotal) (k : Nat) (hk : k ≠ r.month) :
    ∀ l : List (Nat × MonthTotal),
      List.lookup k (fillMonth l r) = List.lookup k l := by
  intro l
  induction l with
  | nil =>
      simp [fillMonth, List.lookup, beq_eq_false_iff_ne.mpr hk]
  | cons p rest ih =>
      obtain ⟨k2, v⟩ := p
      by_cases h2 : (k2 == r.month) = true
      · have hkk2 : (k == k2) = false := by
          refine beq_eq_false_iff_ne.mpr fun he => hk ?_
          exact he.trans (beq_iff_eq.mp h2)
        simp [fillMonth, h2, List.lookup, hkk2]
      · simp only [fillMonth, h2, if_false, Bool.false_eq_true]
        by_cases hkk2 : (k == k2) = true
        · simp [List.lookup, hkk2]
        · simp only [List.lookup, Bool.not_eq_true] at hkk2
          simp [List.lookup, hkk2, ih]

theorem fillMonth_pairs (r : MonthTotal) :
    ∀ l : List (Nat × MonthTotal), (∀ p ∈ l, (Prod.snd p).month = p.1) →
      ∀ p ∈ fillMonth l r, (Prod.snd p).month = p.1 := by
  intro l
  induction l with
  | nil =>
      intro _ p hp
      simp only [fillMonth, List.mem_singleton] at hp
      subst hp; rfl
  | cons q rest ih =>
      obtain ⟨k, v⟩ := q
      intro h p hp
      by_cases hk : (k == r.month) = true
      · simp only [fillMonth, hk, if_true] at hp
        rcases List.mem_cons.mp hp with h1 | h1
        · subst h1
          exact (beq_iff_eq.mp hk).symm
        · exact h (p) (List.mem_cons_of_mem _ h1)
      · simp only [fillMonth, hk, if_false, Bool.false_eq_true] at hp
        rcases List.mem_cons.mp hp with h1 | h1
        · subst h1
          exact h (k, v) (List.mem_cons_self _ _)
        · exact ih (fun q hq => h q (List.mem_cons_of_mem _ hq)) p h1

theorem foldl_fillMonth_keys (rows : List MonthTotal) :
    ∀ l : List (Nat × MonthTotal), (∀ r ∈ rows, r.month ∈ l.map Prod.fst) →
      (rows.foldl fillMonth l).map Prod.fst = l.map Prod.fst := by
  induction rows with
  | nil => intro l _; rfl
  | cons r rs ih =>
      intro l h
      have hr := h r (List.mem_cons_self _ _)
      have hkeys := fillMonth_keys r l hr
      calc ((r :: rs).foldl fillMonth l).map Prod.fst
          = (rs.foldl fillMonth (fillMonth l r)).map Prod.fst := rfl
        _ = (fillMonth l r).map Prod.fst := by
              refine ih (fillMonth l r) fun q hq => ?_
              rw [hkeys]
              exact h q (List.mem_cons_of_mem _ hq)
        _ = l.map Prod.fst := hkeys

theorem foldl_fillMonth_lookup (k : Nat) (rows : List MonthTotal)
    (hk : k ∉ rows.map (·.month)) :
    ∀ l : List (Nat × MonthTotal),
      List.lookup k (rows.foldl fillMonth l) = List.lookup k l := by
  induction rows with
  | nil => intro l; rfl
  | cons r rs ih =>
      intro l
      have hk1 : k ≠ r.month := by
        intro he
        exact hk (by simp [he])
      have hk2 : k ∉ rs.map (·.month) := by
        intro hm
        exact hk (by simp only [List.map_cons]; exact List.mem_cons_of_mem _ hm)
      calc List.lookup k ((r :: rs).foldl fillMonth l)
          = List.lookup k (rs.foldl fillMonth (fillMonth l r)) := rfl
        _ = List.lookup k (fillMonth l r) := ih hk2 _
        _ = List.lookup k l := fillMonth_lookup_other r k hk1 l

theorem foldl_fillMonth_pairs (rows : List MonthTotal) :
    ∀ l : List (Nat × MonthTotal), (∀ p ∈ l, (Prod.snd p).month = p.1) →
      ∀ p ∈ rows.foldl fillMonth l, (Prod.snd p).month = p.1 := by
  induction rows with
  | nil => intro l h; exact h
  | cons r rs ih =>
      intro l h
      exact ih (fillMonth l r) (fillMonth_pairs r l h)

theorem lookup_mem {β : Type} {k : Nat} {v : β} :
    ∀ {l : List (Nat × β)}, List.lookup k l = some v → (k, v) ∈ l := by
  intro l
  induction l with
  | nil => intro h; cases h
  | cons p rest ih =>
      obtain ⟨k2, v2⟩ := p
      intro h
      by_cases hk : (k == k2) = true
      · simp only [List.lookup, hk, if_true, Option.some.injEq] at h
        exact beq_iff_eq.mp hk ▸ h ▸ List.mem_cons_self _ _
      · simp only [List.lookup, hk, if_false, Bool.false_eq_true] at h
        exact List.mem_cons_of_mem _ (ih h)

theorem monthSeed_keys : monthSeed.map Prod.fst = (List.range 12).map (· + 1) := by
  simp [monthSeed, List.map_map]

theorem mem_monthSeed_keys {m : Nat} (h1 : 1 ≤ m) (h2 : m ≤ 12) :
    m ∈ monthSeed.map Prod.fst := by
  rw [monthSeed_keys]
  exact List.mem_map.mpr ⟨m - 1, List.mem_range.mpr (by omega), by omega⟩

theorem monthSeed_lookup {m : Nat} (h1 : 1 ≤ m) (h2 : m ≤ 12) :
    List.lookup m monthSeed = some ⟨m, 0, 0⟩ := by
  interval_cases m <;> rfl

theorem monthSeed_pairs : ∀ p ∈ monthSeed, (Prod.snd p).month = p.1 := by
  intro p hp
  simp only [monthSeed, List.mem_map, List.mem_range] at hp
  obtain ⟨i, _, rfl⟩ := hp
  rfl

theorem monthlyRows_map_month (db : Db) (u y : Nat) :
    (monthlyRows db u y).map (·.month) = monthsIn db u y := by
  have h : (monthlyRows db u y).map (·.month) =
      (monthsIn db u y).map (fun m => m) := by
    simp only [monthlyRows, List.map_map]
    rfl
  rw [h, List.map_id']

theorem mem_monthsIn {db : Db} {u y m : Nat} :
    m ∈ monthsIn db u y ↔
      ∃ x ∈ db.expenses.filter (inYear u y), x.expense_date.month = m := by
  unfold monthsIn
  simp only [List.mem_insertionSort, List.mem_dedup, List.mem_map]

/-- **C1**.  When every stored date has a calendar month between 1 and 12,
`get_monthly_totals` returns exactly 12 entries whose month fields are
1 through 12 in order, and every month with no matching expense appears
zero-filled with total 0 and count 0. -/
theorem monthly_totals_twelve_months (db : Db) (u y : Nat)
    (hvalid : ∀ x ∈ db.expenses,
      1 ≤ x.expense_date.month ∧ x.expense_date.month ≤ 12) :
    (get_monthly_totals db u y).map (·.month) = (List.range 12).map (· + 1) ∧
    (get_monthly_totals db u y).length = 12 ∧
    (∀ m, 1 ≤ m → m ≤ 12 →
      db.expenses.filter (fun x => inYear u y x && x.expense_date.month == m)
        = [] →
      (⟨m, 0, 0⟩ : MonthTotal) ∈ get_monthly_totals db u y) := by
  have hrows : ∀ r ∈ monthlyRows db u y, r.month ∈ monthSeed.map Prod.fst := by
    intro r hr
    have : r.month ∈ (monthlyRows db u y).map (·.month) :=
      List.mem_map_of_mem _ hr
    rw [monthlyRows_map_month] at this
    obtain ⟨x, hx, hxm⟩ := mem_monthsIn.mp this
    obtain ⟨hb1, hb2⟩ := hvalid x (List.mem_of_mem_filter hx)
    exact mem_monthSeed_keys (hxm ▸ hb1) (hxm ▸ hb2)
  have hkeys := foldl_fillMonth_keys (monthlyRows db u y) monthSeed hrows
  have hpairs := foldl_fillMonth_pairs (monthlyRows db u y) monthSeed
    monthSeed_pairs
  have hmap : (get_monthly_totals db u y).map (·.month) =
      (List.range 12).map (· + 1) := by
    unfold get_monthly_totals
    rw [List.map_map]
    calc ((monthlyRows db u y).foldl fillMonth monthSeed).map
          ((fun t : MonthTotal => t.month) ∘ Prod.snd)
        = ((monthlyRows db u y).foldl fillMonth monthSeed).map Prod.fst :=
          List.map_congr_left fun p hp => hpairs p hp
      _ = monthSeed.map Prod.fst := hkeys
      _ = (List.range 12).map (· + 1) := monthSeed_keys
  refine ⟨hmap, ?_, ?_⟩
  · have := congrArg List.length hmap
    simpa using this
  · intro m hm1 hm2 hempty
    have hnot : m ∉ (monthlyRows db u y).map (·.month) := by
      rw [monthlyRows_map_month]
      intro hmem
      obtain ⟨x, hx, hxm⟩ := mem_monthsIn.mp hmem
      have hx2 : x ∈ db.expenses.filter
          (fun x => inYear u y x && x.expense_date.month == m) := by
        rw [List.mem_filter]
        refine ⟨List.mem_of_mem_filter hx, ?_⟩
        have := (List.mem_filter.mp hx).2
        simp [this, hxm]
      rw [hempty] at hx2
      cases hx2
    have hlk : List.lookup m ((monthlyRows db u y).foldl fillMonth monthSeed)
        = some ⟨m, 0, 0⟩ := by
      rw [foldl_fillMonth_lookup m (monthlyRows db u y) hnot monthSeed]
      exact monthSeed_lookup hm1 hm2
    exact List.mem_map_of_mem Prod.snd (lookup_mem hlk)

/-- **C1** (witness). -/
theorem monthly_totals_twelve_months_witness :
    (∀ x ∈ marchDb.expenses,
      1 ≤ x.expense_date.month ∧ x.expense_date.month ≤ 12) ∧
    (get_monthly_totals marchDb 1 2024).map (·.month) =
      (List.range 12).map (· + 1) ∧
    (⟨5, 0, 0⟩ : MonthTotal) ∈ get_monthly_totals marchDb 1 2024 := by
  have h := monthly_totals_twelve_months marchDb 1 2024 (by decide)
  exact ⟨by decide, h.1, h.2.2 5 (by decide) (by decide) (by decide)⟩

theorem sum_map_add {α : Type} (l : List α) (f g : α → ℚ) :
    (l.map fun a => f a + g a).sum = (l.map f).sum + (l.map g).sum := by
  induction l with
  | nil => simp
  | cons a t ih =>
      simp only [List.map_cons, List.sum_cons, ih]
      ring

theorem sum_ite_zero_of_not_mem (k : Nat) (a : ℚ) :
    ∀ cats : List CategoryRow, k ∉ cats.map (·.category_id) →
      (cats.map fun c => if k = c.category_id then a else 0).sum = 0 := by
  intro cats
  induction cats with
  | nil => intro _; rfl
  | cons c t ih =>
      intro hk
      have h1 : k ≠ c.category_id := by
        intro he
        exact hk (by simp [he])
      have h2 : k ∉ t.map (·.category_id) := by
        intro hm
        exact hk (by simp only [List.map_cons]; exact List.mem_cons_of_mem _ hm)
      simp [h1, ih h2]

theorem sum_ite_single (k : Nat) (a : ℚ) :
    ∀ cats : List CategoryRow, (cats.map (·.category_id)).Nodup →
      k ∈ cats.map (·.category_id) →
      (cats.map fun c => if k = c.category_id then a else 0).sum = a := by
  intro cats
  induction cats with
  | nil => intro _ hk; cases hk
  | cons c t ih =>
      intro hnd hk
      simp only [List.map_cons, List.nodup_cons] at hnd
      simp only [List.map_cons] at hk
      rcases List.mem_cons.mp hk with h1 | h1
      · subst h1
        have hz := sum_ite_zero_of_not_mem c.category_id a t hnd.1
        simp [hz]
      · have hne : k ≠ c.category_id := by
          intro he
          exact hnd.1 (he ▸ h1)
        simp [hne, ih hnd.2 h1]

theorem partition_sum (cats : List CategoryRow) (q : ExpenseRow → Bool)
    (hnd : (cats.map (·.category_id)).Nodup) :
    ∀ es : List ExpenseRow,
      (∀ x ∈ es, x.category_id ∈ cats.map (·.category_id)) →
      (cats.map fun c =>
        ((es.filter fun x => q x && x.category_id == c.category_id).map
          (·.amount)).sum).sum
        = ((es.filter q).map (·.amount)).sum := by
  intro es
  induction es with
  | nil =>
      intro _
      simp
  | cons x t ih =>
      intro hfk
      have hx := hfk x (List.mem_cons_self _ _)
      have ht := ih fun z hz => hfk z (List.mem_cons_of_mem _ hz)
      by_cases hq : q x = true
      · have hL : ∀ c ∈ cats,
            (((x :: t).filter fun z =>
              q z && z.category_id == c.category_id).map (·.amount)).sum
              = (if x.category_id = c.category_id then x.amount else 0) +
                ((t.filter fun z =>
                  q z && z.category_id == c.category_id).map (·.amount)).sum := by
          intro c _
          by_cases hc : x.category_id = c.category_id
          · simp [List.filter_cons, hq, hc]
          · simp [List.filter_cons, hq, hc]
        rw [List.map_congr_left hL, sum_map_add, sum_ite_single _ _ cats hnd hx,
          ht]
        simp [List.filter_cons, hq]
      · have hL : ∀ c ∈ cats,
            (((x :: t).filter fun z =>
              q z && z.category_id == c.category_id).map (·.amount)).sum
              = ((t.filter fun z =>
                  q z && z.category_id == c.category_id).map (·.amount)).sum := by
          intro c _
          simp [List.filter_cons, hq]
        rw [List.map_congr_left hL, ht]
        simp [List.filter_cons, hq]

theorem dedupCats_eq_self :
    ∀ {l : List CategoryRow}, (l.map (·.category_id)).Nodup →
      dedupCats l = l := by
  intro l
  induction l with
  | nil => intro _; rw [dedupCats]
  | cons c t ih =>
      intro h
      simp only [List.map_cons, List.nodup_cons] at h
      have hf : t.filter (fun d => d.category_id != c.category_id) = t := by
        rw [List.filter_eq_self]
        intro d hd
        refine bne_iff_ne.mpr fun he => h.1 ?_
        exact he ▸ List.mem_map_of_mem _ hd
      rw [dedupCats, hf, ih h.2]

theorem joined_filter_eq (db : Db) (u : Nat) (s e : Option Date)
    (c : CategoryRow) :
    joinedExpenses db u s e c = db.expenses.filter
      (fun x => matchesFilters u s e x && x.category_id == c.category_id) := by
  unfold joinedExpenses matchesFilters
  apply List.filter_congr
  intro x _
  cases x.category_id == c.category_id <;> cases x.user_id == u <;>
    cases afterStart s x <;> cases beforeEnd e x <;> rfl

theorem total_none_filter (db : Db) (u : Nat) (s e : Option Date) :
    get_total_expenses db u s e none =
      ((db.expenses.filter (matchesFilters u s e)).map (·.amount)).sum := by
  unfold get_total_expenses
  congr 1
  congr 1
  apply List.filter_congr
  intro x _
  simp [catFilter, optTruthy]

/-- **C2**.  With distinct category ids and every expense referring to an
existing category (the schema's uniqueness and foreign-key invariants), the
per-category totals of `get_category_totals` sum to the figure
`get_total_expenses` reports for the same user and the same date filters. -/
theorem category_totals_reconcile (db : Db) (u : Nat) (s e : Option Date)
    (hnd : (db.categories.map (·.category_id)).Nodup)
    (hfk : ∀ x ∈ db.expenses,
      x.category_id ∈ db.categories.map (·.category_id)) :
    ((get_category_totals db u s e).map (·.total)).sum =
      get_total_expenses db u s e none := by
  have hded := dedupCats_eq_self hnd
  have h0 : ((get_category_totals db u s e).map (·.total)).sum =
      (((dedupCats db.categories).map (catEntry db u s e)).map
        (fun t : CatTotal => t.total)).sum :=
    ((List.perm_insertionSort catRel _).map (fun t : CatTotal => t.total)).sum_eq
  rw [h0, hded, List.map_map]
  have h1 : db.categories.map
      ((fun t : CatTotal => t.total) ∘ catEntry db u s e) =
      db.categories.map (fun c => ((db.expenses.filter fun x =>
        matchesFilters u s e x && x.category_id == c.category_id).map
          (·.amount)).sum) := by
    refine List.map_congr_left fun c _ => ?_
    show ((joinedExpenses db u s e c).map (·.amount)).sum = _
    rw [joined_filter_eq]
  rw [h1,
    partition_sum db.categories (matchesFilters u s e) hnd db.expenses hfk,
    total_none_filter]

/-- **C2** (witness). -/
theorem category_totals_reconcile_witness :
    ((marchDb.categories.map (·.category_id)).Nodup ∧
      (∀ x ∈ marchDb.expenses,
        x.category_id ∈ marchDb.categories.map (·.category_id))) ∧
    ((get_category_totals marchDb 1 none none).map (·.total)).sum =
      get_total_expenses marchDb 1 none none none :=
  ⟨⟨by decide, by decide⟩,
    category_totals_reconcile marchDb 1 none none (by decide) (by decide)⟩

/-- **C8**.  Under distinct category ids `get_category_totals` returns one
entry per category; a category with no matching expense contributes the
zero-filled entry with total 0 and count 0; and the output is sorted by
total in descending order. -/
theorem category_totals_complete_sorted (db : Db) (u : Nat)
    (s e : Option Date)
    (hnd : (db.categories.map (·.category_id)).Nodup) :
    (get_category_totals db u s e).length = db.categories.length ∧
    (∀ c ∈ db.categories,
      catEntry db u s e c ∈ get_category_totals db u s e) ∧
    (∀ c ∈ db.categories, joinedExpenses db u s e c = [] →
      (⟨c.category_id, c.category_name, c.icon, c.color, 0, 0⟩ : CatTotal) ∈
        get_category_totals db u s e) ∧
    List.Sorted catRel (get_category_totals db u s e) := by
  have hded := dedupCats_eq_self hnd
  refine ⟨?_, ?_, ?_, List.sorted_insertionSort catRel _⟩
  · unfold get_category_totals
    rw [List.length_insertionSort, List.length_map, hded]
  · intro c hc
    unfold get_category_totals
    rw [List.mem_insertionSort, hded]
    exact List.mem_map_of_mem _ hc
  · intro c hc hempty
    have hz : catEntry db u s e c =
        ⟨c.category_id, c.category_name, c.icon, c.color, 0, 0⟩ := by
      simp [catEntry, hempty]
    rw [← hz]
    unfold get_category_totals
    rw [List.mem_insertionSort, hded]
    exact List.mem_map_of_mem _ hc

/-- **C8** (witness). -/
theorem category_totals_complete_sorted_witness :
    (marchDb.categories.map (·.category_id)).Nodup ∧
    (get_category_totals marchDb 1 none none).length =
      marchDb.categories.length ∧
    List.Sorted catRel (get_category_totals marchDb 1 none none) := by
  have h := category_totals_complete_sorted marchDb 1 none none (by decide)
  exact ⟨by decide, h.1, h.2.2.2⟩

theorem authenticate_eq_none_of_wrong (db : Db) (hash : String → String)
    (name pw : String)
    (h : ∀ u ∈ db.users, userMatchesLogin name u = true →
      hash pw ≠ u.password) :
    authenticate db hash name pw = none := by
  unfold authenticate
  rcases hf : db.users.filter (userMatchesLogin name) with _ | ⟨u, rest⟩
  · rfl
  · have hu : u ∈ db.users.filter (userMatchesLogin name) := by
      rw [hf]
      exact List.mem_cons_self u rest
    rw [List.mem_filter] at hu
    have hne := h u hu.1 hu.2
    simp [beq_eq_false_iff_ne.mpr hne]

/-- **C7**.  Over any stored user table, logging in with a known username
but a password whose hash matches no account for that name fails with
exactly the same triple — message "Invalid username or password", no user —
as logging in with a username (or email) that matches no active account, so
the two failure modes are indistinguishable to the caller. -/
theorem login_failures_indistinguishable (db : Db) (hash : String → String)
    (u1 p1 u2 p2 : String) (h1 : u1 ≠ "") (hp1 : p1 ≠ "") (h2 : u2 ≠ "")
    (hp2 : p2 ≠ "")
    (_hknown : ∃ u ∈ db.users, userMatchesLogin u1 u = true)
    (hwrong : ∀ u ∈ db.users, userMatchesLogin u1 u = true →
      hash p1 ≠ u.password)
    (hunknown : ∀ u ∈ db.users, userMatchesLogin u2 u = false) :
    login db hash u1 p1 = (false, "Invalid username or password", none) ∧
    login db hash u2 p2 = (false, "Invalid username or password", none) := by
  have ha1 := authenticate_eq_none_of_wrong db hash u1 p1 hwrong
  have ha2 : authenticate db hash u2 p2 = none := by
    apply authenticate_eq_none_of_wrong
    intro u hu hm
    rw [hunknown u hu] at hm
    cases hm
  constructor <;>
    simp [login, beq_eq_false_iff_ne.mpr h1, beq_eq_false_iff_ne.mpr hp1,
      beq_eq_false_iff_ne.mpr h2, beq_eq_false_iff_ne.mpr hp2, ha1, ha2]

/-- **C7** (witness). -/
theorem login_failures_indistinguishable_witness :
    ((∃ u ∈ authDb.users, userMatchesLogin "honey" u = true) ∧
      (∀ u ∈ authDb.users, userMatchesLogin "honey" u = true →
        tagHash "wrong" ≠ u.password) ∧
      (∀ u ∈ authDb.users, userMatchesLogin "ghost" u = false)) ∧
    login authDb tagHash "honey" "wrong" =
      (false, "Invalid username or password", none) ∧
    login authDb tagHash "ghost" "pw1" =
      (false, "Invalid username or password", none) :=
  ⟨⟨by decide, by decide, by decide⟩,
    login_failures_indistinguishable authDb tagHash "honey" "wrong" "ghost"
      "pw1" (by decide) (by decide) (by decide) (by decide) (by decide)
      (by decide) (by decide)⟩

/-- **C5**.  `ExpenseController.update_expense` returns the not-found
failure, leaving the database unchanged, whenever no stored expense carries
both the requested id and the requesting user's id; and whenever it reports
success the new table is the old one with the supplied fields applied to
the rows carrying the requested id — `applyUpdate` assigns exactly the
supplied fields and preserves every unsupplied one. -/
theorem update_not_found_and_frame (db : Db) (eid uid : Nat)
    (f : UpdateFields) (huid : uid ≠ 0) :
    ((∀ x ∈ db.expenses, ¬(x.expense_id = eid ∧ x.user_id = uid)) →
      update_expense db eid uid f = (false, "Expense not found", db)) ∧
    ((update_expense db eid uid f).1 = true →
      (update_expense db eid uid f).2.2.expenses = db.expenses.map
        (fun x => if x.expense_id == eid then applyUpdate f x else x)) ∧
    (∀ x : ExpenseRow,
      (applyUpdate f x).expense_id = x.expense_id ∧
      (applyUpdate f x).user_id = x.user_id ∧
      (f.category_id = none → (applyUpdate f x).category_id = x.category_id) ∧
      (∀ v, f.category_id = some v → (applyUpdate f x).category_id = v) ∧
      (f.amount = none → (applyUpdate f x).amount = x.amount) ∧
      (∀ v, f.amount = some v → (applyUpdate f x).amount = v) ∧
      (f.description = none → (applyUpdate f x).description = x.description) ∧
      (∀ v, f.description = some v → (applyUpdate f x).description = v) ∧
      (f.expense_date = none →
        (applyUpdate f x).expense_date = x.expense_date) ∧
      (∀ v, f.expense_date = some v → (applyUpdate f x).expense_date = v) ∧
      (f.payment_method = none →
        (applyUpdate f x).payment_method = x.payment_method) ∧
      (∀ v, f.payment_method = some v →
        (applyUpdate f x).payment_method = v) ∧
      (f.notes = none → (applyUpdate f x).notes = x.notes) ∧
      (∀ v, f.notes = some v → (applyUpdate f x).notes = some v)) := by
  refine ⟨?_, ?_, ?_⟩
  · intro hnone
    have hfil : db.expenses.filter (fun x =>
        (db.categories.any fun c => c.category_id == x.category_id) &&
          x.expense_id == eid &&
          (if optTruthy (some uid) then x.user_id == (some uid).getD 0
           else true)) = [] := by
      rw [List.filter_eq_nil_iff]
      intro x hx
      intro hp
      have htruthy : optTruthy (some uid) = true := by
        simp [optTruthy, huid]
      rw [htruthy] at hp
      simp only [if_true, Bool.and_eq_true, beq_iff_eq] at hp
      exact hnone x hx ⟨hp.1.2, by simpa using hp.2⟩
    have hfound : get_by_id db eid (some uid) = none := by
      unfold get_by_id
      rw [hfil]
      rfl
    simp [update_expense, hfound]
  · intro hsucc
    rcases hfound : get_by_id db eid (some uid) with _ | ex
    · rw [update_expense] at hsucc
      simp only [hfound] at hsucc
      cases hsucc
    · obtain ⟨hexmem, hexid, hexu⟩ := get_by_id_scoped huid hfound
      subst hexid
      rw [update_expense] at hsucc ⊢
      simp only [hfound] at hsucc ⊢
      by_cases hnu : noUpdates f = true
      · exfalso
        rcases hfa : f.amount with _ | a <;> simp only [hfa] at hsucc
        · simp [updateOutcome, expense_update, hnu] at hsucc
        · by_cases ha : a ≤ 0
          · rw [if_pos ha] at hsucc
            cases hsucc
          · rw [if_neg ha] at hsucc
            simp [updateOutcome, expense_update, hnu] at hsucc
      · have hout : (updateOutcome db ex.expense_id f).2.2.expenses =
            db.expenses.map (fun x =>
              if x.expense_id == ex.expense_id then applyUpdate f x else x) := by
          simp [updateOutcome, expense_update, hnu]
        rcases hfa : f.amount with _ | a <;> simp only [hfa] at hsucc ⊢
        · exact hout
        · by_cases ha : a ≤ 0
          · rw [if_pos ha] at hsucc
            cases hsucc
          · rw [if_neg ha]
            exact hout
  · intro x
    refine ⟨rfl, rfl, ?_, ?_, ?_, ?_, ?_, ?_, ?_, ?_, ?_, ?_, ?_, ?_⟩ <;>
      first
        | (intro h; simp [applyUpdate, h])
        | (intro v h; simp [applyUpdate, h])

/-- **C5** (witness). -/
theorem update_not_found_and_frame_witness :
    (1 : Nat) ≠ 0 ∧
    ((∀ x ∈ otherUserDb.expenses, ¬(x.expense_id = 1 ∧ x.user_id = 1)) →
      update_expense otherUserDb 1 1 amountOnly =
        (false, "Expense not found", otherUserDb)) ∧
    (∀ x ∈ otherUserDb.expenses, ¬(x.expense_id = 1 ∧ x.user_id = 1)) := by
  have h := update_not_found_and_frame otherUserDb 1 1 amountOnly (by decide)
  exact ⟨by decide, h.1, by decide⟩

/-- **C6**.  With all five fields supplied, `AuthController.register`
checks the username pattern, then the email pattern, then the password
policy, then the password/confirm match, then uniqueness of username and
then of email; the first failing check alone determines the returned
message, every failure leaves the database unchanged (no user row is
created), and all the failure messages are pairwise distinct. -/
theorem register_first_failure_wins (db : Db) (hash : String → String)
    (un em pw cf fn : String) (hun : un ≠ "") (hem : em ≠ "")
    (hpw : pw ≠ "") (hcf : cf ≠ "") (hfn : fn ≠ "") :
    (validate_username un = false →
      register db hash un em pw cf fn = (false,
        "Username must be 3-20 characters (letters, numbers, underscore)",
        db)) ∧
    (validate_username un = true → validate_email em = false →
      register db hash un em pw cf fn =
        (false, "Please enter a valid email address", db)) ∧
    (validate_username un = true → validate_email em = true →
      (validate_password pw).1 = false →
      register db hash un em pw cf fn =
        (false, (validate_password pw).2, db)) ∧
    (validate_username un = true → validate_email em = true →
      (validate_password pw).1 = true → pw ≠ cf →
      register db hash un em pw cf fn =
        (false, "Passwords do not match", db)) ∧
    (validate_username un = true → validate_email em = true →
      (validate_password pw).1 = true → pw = cf →
      user_exists db (some un) (some em) = (true, some "username") →
      register db hash un em pw cf fn =
        (false, "Username already taken", db)) ∧
    (validate_username un = true → validate_email em = true →
      (validate_password pw).1 = true → pw = cf →
      user_exists db (some un) (some em) = (true, some "email") →
      register db hash un em pw cf fn =
        (false, "Email already registered", db)) ∧
    ((register db hash un em pw cf fn).1 = false →
      (register db hash un em pw cf fn).2.2 = db) ∧
    ([("All fields are required" : String),
      "Username must be 3-20 characters (letters, numbers, underscore)",
      "Please enter a valid email address",
      "Password must be at least 6 characters",
      "Password must contain at least one letter",
      "Password must contain at least one number",
      "Passwords do not match", "Username already taken",
      "Email already registered"].Nodup) := by
  have hb : (un == "" || em == "" || pw == "" || cf == "" || fn == "")
      = false := by
    simp [beq_eq_false_iff_ne.mpr hun, beq_eq_false_iff_ne.mpr hem,
      beq_eq_false_iff_ne.mpr hpw, beq_eq_false_iff_ne.mpr hcf,
      beq_eq_false_iff_ne.mpr hfn]
  refine ⟨?_, ?_, ?_, ?_, ?_, ?_, ?_, by decide⟩
  · intro hv
    simp [register, hb, hv]
  · intro hv he
    simp [register, hb, hv, he]
  · intro hv he hp
    simp [register, hb, hv, he, hp]
  · intro hv he hp hne
    simp [register, hb, hv, he, hp, bne_iff_ne.mpr hne]
  · intro hv he hp heq hex
    have hbne : (pw != cf) = false := by
      simp [heq]
    simp [register, hb, hv, he, hp, hbne, hex]
  · intro hv he hp heq hex
    have hbne : (pw != cf) = false := by
      simp [heq]
    simp [register, hb, hv, he, hp, hbne, hex]
  · intro hfail
    by_cases g1 : (un == "" || em == "" || pw == "" || cf == "" || fn == "")
        = true
    · simp [register, g1]
    · rw [Bool.not_eq_true] at g1
      by_cases g2 : validate_username un = true
      · by_cases g3 : validate_email em = true
        · by_cases g4 : (validate_password pw).1 = true
          · by_cases g5 : (pw != cf) = true
            · simp [register, g1, g2, g3, g4, g5]
            · rw [Bool.not_eq_true] at g5
              rcases hex : user_exists db (some un) (some em) with ⟨b, fld⟩
              cases b
              · exfalso
                rw [register] at hfail
                simp only [g1, g2, g3, g4, g5, hex, Bool.false_eq_true,
                  if_false, Bool.not_true, Bool.not_false, if_true,
                  user_create] at hfail
                cases hfail
              · by_cases g6 : (fld == some "username") = true
                · simp [register, g1, g2, g3, g4, g5, hex, g6]
                · simp [register, g1, g2, g3, g4, g5, hex, g6]
          · rw [Bool.not_eq_true] at g4
            simp [register, g1, g2, g3, g4]
        · rw [Bool.not_eq_true] at g3
          simp [register, g1, g2, g3]
      · rw [Bool.not_eq_true] at g2
        simp [register, g1, g2]

/-- **C6** (witness). -/
theorem register_first_failure_wins_witness :
    ("ab" : String) ≠ "" ∧ validate_username "ab" = false ∧
    register emptyDb tagHash "ab" "a@b.cc" "abc123" "abc123" "X" = (false,
      "Username must be 3-20 characters (letters, numbers, underscore)",
      emptyDb) := by
  have h := register_first_failure_wins emptyDb tagHash "ab" "a@b.cc"
    "abc123" "abc123" "X" (by decide) (by decide) (by decide) (by decide)
    (by decide)
  exact ⟨by decide, by decide, h.1 (by decide)⟩

end ExpenseApp
